import Mathlib

/-!
Shallow embedding of `amqp/abstract_channel.py` (class `ChannelBase`):
the per-channel method-dispatch and request/response core of py-amqp.

Modelling conventions:
* A method signature (`method_sig_t`, a class-id/method-id pair) is `Sig := Nat × Nat`.
* Byte strings are `List Nat`.
* The vine promises that the code stores in `self._pending` and returns from
  `send_method` are modelled with an explicit heap `promises : List PromiseState`;
  a handle is the index into that heap.  `p()` / `listener(*args)` on a promise
  resolves it at most once (vine single-resolution semantics).
* `self._pending` and `self._callbacks` are Python dicts keyed by signatures; they
  are modelled as association lists with dict semantics (`alookup`, `aset`, `aerase`).
* External collaborators (the serialization `loads`/`dumps`, the body transcoder
  behind `content.body.decode(encoding)`, and the `_METHODS` schema table) are
  oracle functions bundled in `Externals`.
* `connection.drain_events` is modelled by consuming a script of `DrainEvent`s:
  a frame addressed to this channel (dispatched via `dispatch_method`), a
  socket-timeout, or some other exception.  Exhausting the script while the
  awaited promise is unready models blocking forever (`stuck`); on that path the
  `finally:` block of `wait` never runs, just as in the source.
* Invocations of listeners / callbacks and transport writes are recorded in an
  event trace `List Ev` so that theorems can speak about who was invoked, with
  which arguments, and in which order.
-/

namespace Amqp

/-- AMQP method signature: (class_id, method_id). -/
abbrev Sig := Nat × Nat

/-- Byte strings. -/
abbrev Bytes := List Nat

/-- A content message body carrier: `content.body` plus the optional
`content_encoding` attribute (`hasattr(content, 'content_encoding')` holds iff
the field is `some`). -/
structure Content where
  body : Bytes
  content_encoding : Option String
deriving Repr, DecidableEq

/-- A decoded method argument, as produced by `serialization.loads`.  The
`content` constructor is the trailing content object appended by
`dispatch_method` when the method's schema declares content (the appended
object may be `None`, hence the `Option`). -/
inductive Arg
  | int (n : Int)
  | str (s : String)
  | content (c : Option Content)
deriving Repr, DecidableEq

/-- State of one vine promise: `ready` flag and resolved value. -/
structure PromiseState where
  ready : Bool
  value : Option (List Arg)
deriving Repr, DecidableEq

/-- Entry of the `_METHODS` schema table: the argument format string
(`amqp_method.args`, falsy iff empty) and whether the method carries content
(`amqp_method.content`). -/
structure MethodT where
  args : String
  content : Bool
deriving Repr, DecidableEq

/-- Errors raised by the modelled code paths. -/
inductive Err
  | recoverableConnectionError   -- RecoverableConnectionError('connection already closed')
  | attributeError               -- attribute access on an absent (None) connection
  | amqpNotImplemented (sig : Sig)  -- AMQPNotImplementedError('Unknown AMQP method ...')
  | decodeError                  -- an exception out of serialization.loads
  | timeout                      -- socket.timeout out of drain_events
  | other                        -- any other exception out of drain_events
deriving Repr, DecidableEq

/-- Per-channel state of a `ChannelBase` instance.  `connected` is
`self.connection is not None`; `pending` is `self._pending` (signature ↦
promise handle); `callbacks` is `self._callbacks` (signature ↦ opaque
listener id); `promises` is the promise heap. -/
structure ChannelState where
  connected : Bool
  channel_id : Nat
  auto_decode : Bool
  pending : List (Sig × Nat)
  callbacks : List (Sig × Nat)
  promises : List PromiseState
deriving Repr, DecidableEq

/-- Dict lookup on an association list. -/
def alookup (l : List (Sig × Nat)) (k : Sig) : Option Nat :=
  match l with
  | [] => none
  | (k', v) :: rest => if k' = k then some v else alookup rest k

/-- Dict assignment `d[k] = v` (replaces the existing binding, else appends). -/
def aset (l : List (Sig × Nat)) (k : Sig) (v : Nat) : List (Sig × Nat) :=
  match l with
  | [] => [(k, v)]
  | (k', v') :: rest => if k' = k then (k, v) :: rest else (k', v') :: aset rest k v

/-- Dict deletion `d.pop(k, None)` (dict keys are unique, so removing every
binding of `k` coincides with removing the one binding). -/
def aerase (l : List (Sig × Nat)) (k : Sig) : List (Sig × Nat) :=
  l.filter (fun kv => decide (kv.1 ≠ k))

/-- Allocate a fresh unresolved promise, returning its handle. -/
def promiseAlloc (ps : List PromiseState) : Nat × List PromiseState :=
  (ps.length, ps ++ [⟨false, none⟩])

/-- Read a promise from the heap (out-of-range reads yield an inert
unresolved promise; all real code paths stay in range). -/
def promiseGet (ps : List PromiseState) (pid : Nat) : PromiseState :=
  (ps.get? pid).getD ⟨false, none⟩

/-- Resolve promise `pid` with `args`; a second resolution is ignored
(vine single-resolution semantics). -/
def promiseResolve (ps : List PromiseState) (pid : Nat) (args : List Arg) :
    List PromiseState :=
  match ps.get? pid with
  | none => ps
  | some p => if p.ready then ps else ps.set pid ⟨true, some args⟩

/-- External collaborators of `ChannelBase`. -/
structure Externals where
  /-- `content.body.decode(encoding)`; `none` models a raised exception. -/
  decodeBody : Bytes → String → Option Bytes
  /-- `serialization.loads(format, payload, offset)`; `.error` models a raised
  exception. -/
  loads : String → Bytes → Nat → Except Unit (List Arg × Nat)
  /-- `serialization.dumps(format, args)`. -/
  dumps : String → List Arg → Bytes
  /-- The `_METHODS` schema table of the concrete subclass. -/
  methods : Sig → Option MethodT

/-- Observable events: transport writes and recipient invocations. -/
inductive Ev
  | write (channel_id : Nat) (sig : Sig) (payload : Bytes) (content : Option Content)
  | callListener (cb : Nat) (args : List Arg)
  | resolvePromise (pid : Nat) (args : List Arg)
  | callCallback (cb : Nat)
deriving Repr, DecidableEq

/-- A dispatch recipient: a persistent listener from `_callbacks` or a
one-shot promise popped from `_pending`. -/
inductive Recipient
  | cb (id : Nat)
  | promise (pid : Nat)
deriving Repr, DecidableEq

/-- `listener(*args)` for one recipient: an external listener leaves channel
state unchanged; a promise recipient is resolved. -/
def invokeRecipient (st : ChannelState) (r : Recipient) (args : List Arg) :
    ChannelState × Ev :=
  match r with
  | .cb c => (st, .callListener c args)
  | .promise pid =>
      ({ st with promises := promiseResolve st.promises pid args },
       .resolvePromise pid args)

/-- The `for listener in listeners:` invocation loop of `dispatch_method`. -/
def invokeAll (st : ChannelState) (rs : List Recipient) (args : List Arg) :
    ChannelState × List Ev :=
  match rs with
  | [] => (st, [])
  | r :: rest =>
    let s1 := invokeRecipient st r args
    let s2 := invokeAll s1.1 rest args
    (s2.1, s1.2 :: s2.2)

/-- Result of one `dispatch_method` call: post-state, invocation trace, and
the raised error if any. -/
structure DispatchResult where
  st : ChannelState
  trace : List Ev
  err : Option Err
deriving Repr, DecidableEq

/-- The auto-decode step at the top of `dispatch_method`: if content is
present, `self.auto_decode` is set and the content declares an encoding, try
to transcode the body; a transcoding failure is swallowed and the original
body kept. -/
def autoDecodeContent (ext : Externals) (auto : Bool) (content : Option Content) :
    Option Content :=
  match content with
  | none => none
  | some c =>
    if auto then
      match c.content_encoding with
      | none => some c
      | some enc =>
        match ext.decodeBody c.body enc with
        | some b => some { c with body := b }
        | none => some c
    else some c

/-- Argument decoding of `dispatch_method`: `args = []`, then
`loads(amqp_method.args, payload, 4)` when the format is truthy, then the
content object appended when the schema declares content. -/
def decodeArgs (ext : Externals) (mt : MethodT) (payload : Bytes)
    (content : Option Content) : Except Unit (List Arg) :=
  match (if mt.args ≠ "" then (ext.loads mt.args payload 4).map Prod.fst
         else .ok []) with
  | .error e => .error e
  | .ok args => .ok (if mt.content then args ++ [Arg.content content] else args)

/-- Decode the arguments and run the recipient loop (the tail of
`dispatch_method` once recipients are collected). -/
def dispatchDeliver (ext : Externals) (st : ChannelState) (mt : MethodT)
    (payload : Bytes) (content : Option Content) (ls : List Recipient) :
    DispatchResult :=
  match decodeArgs ext mt payload content with
  | .error _ => ⟨st, [], some .decodeError⟩
  | .ok args =>
    let r := invokeAll st ls args
    ⟨r.1, r.2, none⟩

/-- `dispatch_method` from the schema lookup on (the content argument is the
already auto-decoded one). -/
def dispatch_after_decode (ext : Externals) (st : ChannelState) (method_sig : Sig)
    (payload : Bytes) (content : Option Content) : DispatchResult :=
  match ext.methods method_sig with
  | none => ⟨st, [], some (.amqpNotImplemented method_sig)⟩
  | some amqp_method =>
    let listeners : Option (List Recipient) :=
      (alookup st.callbacks method_sig).map (fun cb => [Recipient.cb cb])
    match alookup st.pending method_sig with
    | none =>
      match listeners with
      | none => ⟨st, [], none⟩
      | some ls => dispatchDeliver ext st amqp_method payload content ls
    | some one_shot =>
      let st' := { st with pending := aerase st.pending method_sig }
      let ls := listeners.getD [] ++ [Recipient.promise one_shot]
      dispatchDeliver ext st' amqp_method payload content ls

/-- `ChannelBase.dispatch_method(method_sig, payload, content)`. -/
def dispatch_method (ext : Externals) (st : ChannelState) (method_sig : Sig)
    (payload : Bytes) (content : Option Content) : DispatchResult :=
  dispatch_after_decode ext st method_sig payload
    (autoDecodeContent ext st.auto_decode content)

/-- One event that `connection.drain_events(timeout=...)` can produce: an
inbound frame demultiplexed to this channel (dispatched through
`dispatch_method`), a socket-timeout, or some other exception. -/
inductive DrainEvent
  | frame (sig : Sig) (payload : Bytes) (content : Option Content)
  | timeout
  | fail
deriving Repr, DecidableEq

/-- How the `while not p.ready:` drain loop of `wait` ended. -/
inductive LoopOut
  | resolved
  | errored (e : Err)
  | stuck
deriving Repr, DecidableEq

/-- The value a successful `wait` yields:
`args if returns_tuple else (args and args[0])`. -/
inductive WaitRet
  | tuple (args : List Arg)
  | first (a : Option Arg)
  | noValue
deriving Repr, DecidableEq

/-- Outcome of a `wait` call. -/
inductive WaitOutcome
  | ok (v : WaitRet)
  | error (e : Err)
  | stuck
deriving Repr, DecidableEq

/-- Result of a `wait` call: post-state, invocation trace, outcome. -/
structure WaitResult where
  st : ChannelState
  trace : List Ev
  out : WaitOutcome
deriving Repr, DecidableEq

/-- The registration loop of `wait`:
`for m in method: prev_p.append(pending.get(m)); pending[m] = p`. -/
def registerAll (pending : List (Sig × Nat)) (ms : List Sig) (pid : Nat) :
    List (Option Nat) × List (Sig × Nat) :=
  match ms with
  | [] => ([], pending)
  | m :: rest =>
    let prev := alookup pending m
    let r := registerAll (aset pending m pid) rest pid
    (prev :: r.1, r.2)

/-- The `finally:` restore loop of `wait`:
`for i, m in enumerate(method): pending[m] = prev_p[i] if prev_p[i] is not None
else pending.pop(m, None)`. -/
def restoreAll (pending : List (Sig × Nat)) (ms : List Sig)
    (prevs : List (Option Nat)) : List (Sig × Nat) :=
  match ms, prevs with
  | m :: mrest, prev :: prest =>
    restoreAll (match prev with
                | some q => aset pending m q
                | none => aerase pending m) mrest prest
  | _, _ => pending

/-- The `while not p.ready: yield from self.connection.drain_events(...)` loop
of `wait`, consuming the drain script.  Accessing `drain_events` on an absent
connection raises an AttributeError; an error out of `dispatch_method`
propagates through the drain call; an exhausted script with the promise
unready models blocking forever. -/
def waitLoop (ext : Externals) (pid : Nat) :
    ChannelState → List DrainEvent → ChannelState × List Ev × LoopOut
  | st, events =>
    if (promiseGet st.promises pid).ready then (st, [], .resolved)
    else if st.connected = false then (st, [], .errored .attributeError)
    else
      match events with
      | [] => (st, [], .stuck)
      | .timeout :: _ => (st, [], .errored .timeout)
      | .fail :: _ => (st, [], .errored .other)
      | .frame sig payload content :: rest =>
        let d := dispatch_method ext st sig payload content
        match d.err with
        | some e => (d.st, d.trace, .errored e)
        | none =>
          let r := waitLoop ext pid d.st rest
          (r.1, d.trace ++ r.2.1, r.2.2)

/-- `p = ensure_promise(callback)`: `none` allocates a fresh promise,
`some pid` reuses an existing thenable.  Yields the promise handle and the
resulting heap. -/
def waitPromise (st : ChannelState) (callback : Option Nat) :
    Nat × List PromiseState :=
  match callback with
  | some pid => (pid, st.promises)
  | none => promiseAlloc st.promises

/-- The tail of `wait` once the drain loop has ended: on resolution, read
`p.value` and shape the yielded value
(`args if returns_tuple else (args and args[0])`); on both the resolution and
the error paths run the `finally:` restore loop; a `stuck` loop never reaches
the `finally:` block. -/
def waitFinish (method : List Sig) (prev_p : List (Option Nat)) (p : Nat)
    (returns_tuple : Bool) (r : ChannelState × List Ev × LoopOut) : WaitResult :=
  match r.2.2 with
  | .stuck => ⟨r.1, r.2.1, .stuck⟩
  | .errored e =>
    ⟨{ r.1 with pending := restoreAll r.1.pending method prev_p }, r.2.1, .error e⟩
  | .resolved =>
    let ret := match (promiseGet r.1.promises p).value with
      | some args => if returns_tuple then WaitRet.tuple args
                     else WaitRet.first args.head?
      | none => WaitRet.noValue
    ⟨{ r.1 with pending := restoreAll r.1.pending method prev_p }, r.2.1, .ok ret⟩

/-- `ChannelBase.wait(method, callback, timeout, returns_tuple)`.

`method` is already normalised to a list (the code wraps a single signature
into a singleton).  The timeout parameter is only passed through to
`drain_events`, whose behaviour the drain script prescribes, so it does not
appear separately. -/
def wait (ext : Externals) (st : ChannelState) (events : List DrainEvent)
    (method : List Sig) (callback : Option Nat) (returns_tuple : Bool) :
    WaitResult :=
  waitFinish method (registerAll st.pending method (waitPromise st callback).1).1
    (waitPromise st callback).1 returns_tuple
    (waitLoop ext (waitPromise st callback).1
      { st with promises := (waitPromise st callback).2,
                pending := (registerAll st.pending method (waitPromise st callback).1).2 }
      events)

/-- Outcome of the frame-writer call in `send_method`: success, the writer
coroutine stopping because the connection is gone (`StopIteration`), or some
other exception. -/
inductive WriteOutcome
  | ok
  | stopIteration
  | raiseOther
deriving Repr, DecidableEq

/-- Outcome of a `send_method` call; on success it yields the handle of the
internal send-completion promise `p`. -/
inductive SendOutcome
  | ok (p : Nat)
  | error (e : Err)
  | stuck
deriving Repr, DecidableEq

/-- Result of a `send_method` call. -/
structure SendResult where
  st : ChannelState
  trace : List Ev
  out : SendOutcome
deriving Repr, DecidableEq

/-- `ChannelBase.send_method(sig, format, args, content, wait, callback,
returns_tuple)`.

`writer` prescribes the outcome of the single `conn.frame_writer` call;
`events` is the drain script used when `wait` is requested; `wait_for` is the
wait parameter normalised to a list (`[]` = falsy, no wait); `callback` is an
opaque id whose invocation is traced. -/
def send_method (ext : Externals) (writer : WriteOutcome) (st : ChannelState)
    (events : List DrainEvent) (sig : Sig) (format : Option String)
    (args : List Arg) (content : Option Content) (wait_for : List Sig)
    (callback : Option Nat) (returns_tuple : Bool) : SendResult :=
  let pAlloc := promiseAlloc st.promises
  let p := pAlloc.1
  let st0 : ChannelState := { st with promises := pAlloc.2 }
  if st0.connected = false then ⟨st0, [], .error .recoverableConnectionError⟩
  else
    let payload := match format with
      | some f => ext.dumps f args
      | none => []
    let writeEv := Ev.write st0.channel_id sig payload content
    match writer with
    | .stopIteration => ⟨st0, [writeEv], .error .recoverableConnectionError⟩
    | .raiseOther => ⟨st0, [writeEv], .error .other⟩
    | .ok =>
      let st1 : ChannelState := { st0 with promises := promiseResolve st0.promises p [] }
      let cbTrace := match callback with
        | some c => [Ev.callCallback c]
        | none => []
      if wait_for.isEmpty then ⟨st1, writeEv :: cbTrace, .ok p⟩
      else
        let w := wait ext st1 events wait_for none returns_tuple
        match w.out with
        | .error e => ⟨w.st, writeEv :: (cbTrace ++ w.trace), .error e⟩
        | .stuck => ⟨w.st, writeEv :: (cbTrace ++ w.trace), .stuck⟩
        | .ok _ => ⟨w.st, writeEv :: (cbTrace ++ w.trace), .ok p⟩

/-! ### Concrete instances used by the witnesses -/

/-- A sample method signature present in the schema table. -/
def exSig : Sig := (60, 40)

/-- A sample schema entry without content. -/
def exMt : MethodT := ⟨"B", false⟩

/-- Sample externals: the body transcoder always fails, `loads` decodes the
argument payload to `[42]`. -/
def exEnv : Externals :=
  { decodeBody := fun _ _ => none
  , loads := fun _ p _ => .ok ([Arg.int 42], p.length)
  , dumps := fun _ _ => [1, 2]
  , methods := fun s => if s = exSig then some exMt else none }

/-- Sample externals whose `loads` raises. -/
def exEnvBad : Externals :=
  { exEnv with loads := fun _ _ _ => .error () }

/-- A sample open channel with a persistent listener (id 3) for `exSig` and a
heap of eight unresolved promises. -/
def exSt : ChannelState :=
  { connected := true
  , channel_id := 1
  , auto_decode := false
  , pending := []
  , callbacks := [(exSig, 3)]
  , promises := List.replicate 8 ⟨false, none⟩ }

/-! ### Association-list (dict) lemmas -/

theorem alookup_aset_self (l : List (Sig × Nat)) (k : Sig) (v : Nat) :
    alookup (aset l k v) k = some v := by
  induction l with
  | nil => simp [alookup, aset]
  | cons kv rest ih =>
    by_cases h : kv.1 = k <;> simp [alookup, aset, h, ih]

theorem alookup_aset_ne (l : List (Sig × Nat)) (k k' : Sig) (v : Nat)
    (h : k' ≠ k) : alookup (aset l k v) k' = alookup l k' := by
  induction l with
  | nil => simp [alookup, aset, Ne.symm h]
  | cons kv rest ih =>
    by_cases hk : kv.1 = k
    · simp [alookup, aset, hk, Ne.symm h]
    · by_cases hk' : kv.1 = k' <;> simp [alookup, aset, hk, hk', h, ih]

theorem alookup_aerase_self (l : List (Sig × Nat)) (k : Sig) :
    alookup (aerase l k) k = none := by
  induction l with
  | nil => simp [alookup, aerase]
  | cons kv rest ih =>
    by_cases h : kv.1 = k <;> simp_all [alookup, aerase, List.filter]

theorem alookup_aerase_ne (l : List (Sig × Nat)) (k k' : Sig)
    (h : k' ≠ k) : alookup (aerase l k) k' = alookup l k' := by
  induction l with
  | nil => simp [alookup, aerase]
  | cons kv rest ih =>
    by_cases hk : kv.1 = k
    · have : kv.1 ≠ k' := by rw [hk]; exact fun e => h e.symm
      simp_all [alookup, aerase, List.filter]
    · by_cases hk' : kv.1 = k' <;> simp_all [alookup, aerase, List.filter]

/-! ### State-preservation lemmas for the dispatcher -/

theorem invokeRecipient_callbacks (st : ChannelState) (r : Recipient)
    (args : List Arg) : (invokeRecipient st r args).1.callbacks = st.callbacks := by
  cases r <;> rfl

theorem invokeRecipient_pending (st : ChannelState) (r : Recipient)
    (args : List Arg) : (invokeRecipient st r args).1.pending = st.pending := by
  cases r <;> rfl

theorem invokeAll_callbacks (rs : List Recipient) (st : ChannelState)
    (args : List Arg) : (invokeAll st rs args).1.callbacks = st.callbacks := by
  induction rs generalizing st with
  | nil => rfl
  | cons r rest ih =>
    simp [invokeAll, ih, invokeRecipient_callbacks]

theorem invokeAll_pending (rs : List Recipient) (st : ChannelState)
    (args : List Arg) : (invokeAll st rs args).1.pending = st.pending := by
  induction rs generalizing st with
  | nil => rfl
  | cons r rest ih =>
    simp [invokeAll, ih, invokeRecipient_pending]

theorem dispatchDeliver_callbacks (ext : Externals) (st : ChannelState)
    (mt : MethodT) (payload : Bytes) (content : Option Content)
    (ls : List Recipient) :
    (dispatchDeliver ext st mt payload content ls).st.callbacks = st.callbacks := by
  unfold dispatchDeliver
  cases decodeArgs ext mt payload content <;> simp [invokeAll_callbacks]

theorem dispatchDeliver_pending (ext : Externals) (st : ChannelState)
    (mt : MethodT) (payload : Bytes) (content : Option Content)
    (ls : List Recipient) :
    (dispatchDeliver ext st mt payload content ls).st.pending = st.pending := by
  unfold dispatchDeliver
  cases decodeArgs ext mt payload content <;> simp [invokeAll_pending]

theorem dispatch_method_callbacks (ext : Externals) (st : ChannelState)
    (sig : Sig) (payload : Bytes) (content : Option Content) :
    (dispatch_method ext st sig payload content).st.callbacks = st.callbacks := by
  unfold dispatch_method dispatch_after_decode
  cases ext.methods sig with
  | none => rfl
  | some mt =>
    cases alookup st.pending sig <;>
      cases alookup st.callbacks sig <;>
        simp [dispatchDeliver_callbacks]

/-- Helper: the full evaluation of `dispatch_method` when the signature is in
the schema table, a listener and a one-shot handle are both registered, and
argument decoding succeeds. -/
theorem dispatch_merge_eq (ext : Externals) (st : ChannelState) (sig : Sig)
    (payload : Bytes) (content : Option Content) (mt : MethodT) (cb pid : Nat)
    (args : List Arg)
    (h1 : ext.methods sig = some mt)
    (h2 : alookup st.callbacks sig = some cb)
    (h3 : alookup st.pending sig = some pid)
    (h4 : decodeArgs ext mt payload
            (autoDecodeContent ext st.auto_decode content) = .ok args) :
    dispatch_method ext st sig payload content =
      ⟨{ st with pending := aerase st.pending sig,
                 promises := promiseResolve st.promises pid args },
       [Ev.callListener cb args, Ev.resolvePromise pid args], none⟩ := by
  unfold dispatch_method dispatch_after_decode dispatchDeliver
  simp [h1, h2, h3, h4, invokeAll, invokeRecipient]

/-- C3: a dispatch for a signature with both a persistent listener and a
pending one-shot handle invokes each exactly once with the decoded arguments;
afterwards the one-shot entry is gone from the pending registry while the
listener remains registered. -/
theorem dispatch_merge_both_invoked (ext : Externals) (st : ChannelState)
    (sig : Sig) (payload : Bytes) (content : Option Content) (mt : MethodT)
    (cb pid : Nat) (args : List Arg)
    (h1 : ext.methods sig = some mt)
    (h2 : alookup st.callbacks sig = some cb)
    (h3 : alookup st.pending sig = some pid)
    (h4 : decodeArgs ext mt payload
            (autoDecodeContent ext st.auto_decode content) = .ok args) :
    (dispatch_method ext st sig payload content).err = none ∧
    (dispatch_method ext st sig payload content).trace.count
      (Ev.callListener cb args) = 1 ∧
    (dispatch_method ext st sig payload content).trace.count
      (Ev.resolvePromise pid args) = 1 ∧
    alookup (dispatch_method ext st sig payload content).st.pending sig = none ∧
    alookup (dispatch_method ext st sig payload content).st.callbacks sig = some cb := by
  rw [dispatch_merge_eq ext st sig payload content mt cb pid args h1 h2 h3 h4]
  refine ⟨rfl, ?_, ?_, ?_, h2⟩
  · simp [List.count_cons]
  · simp [List.count_cons]
  · exact alookup_aerase_self st.pending sig

/-- Witness for C3 at a concrete channel state. -/
theorem dispatch_merge_both_invoked_witness :
    (exEnv.methods exSig = some exMt ∧
     alookup ({ exSt with pending := [(exSig, 5)] } : ChannelState).callbacks
       exSig = some 3 ∧
     alookup ({ exSt with pending := [(exSig, 5)] } : ChannelState).pending
       exSig = some 5) ∧
    ((dispatch_method exEnv { exSt with pending := [(exSig, 5)] } exSig [] none).err
        = none ∧
     (dispatch_method exEnv { exSt with pending := [(exSig, 5)] } exSig [] none).trace.count
        (Ev.callListener 3 [Arg.int 42]) = 1 ∧
     (dispatch_method exEnv { exSt with pending := [(exSig, 5)] } exSig [] none).trace.count
        (Ev.resolvePromise 5 [Arg.int 42]) = 1 ∧
     alookup (dispatch_method exEnv { exSt with pending := [(exSig, 5)] } exSig [] none).st.pending
        exSig = none ∧
     alookup (dispatch_method exEnv { exSt with pending := [(exSig, 5)] } exSig [] none).st.callbacks
        exSig = some 3) :=
  ⟨⟨by decide, by decide, by decide⟩,
   dispatch_merge_both_invoked exEnv { exSt with pending := [(exSig, 5)] }
     exSig [] none exMt 3 5 [Arg.int 42] (by decide) (by decide) (by decide)
     (by rfl)⟩

/-- C4: dispatching a signature absent from the schema table raises the
unimplemented-method error, invokes no recipient, and leaves the channel
state unchanged. -/
theorem dispatch_unknown_method (ext : Externals) (st : ChannelState)
    (sig : Sig) (payload : Bytes) (content : Option Content)
    (h : ext.methods sig = none) :
    dispatch_method ext st sig payload content =
      ⟨st, [], some (.amqpNotImplemented sig)⟩ := by
  unfold dispatch_method dispatch_after_decode
  simp [h]

/-- Witness for C4 at a concrete channel state. -/
theorem dispatch_unknown_method_witness :
    exEnv.methods (9, 9) = none ∧
    dispatch_method exEnv exSt (9, 9) [] none =
      ⟨exSt, [], some (.amqpNotImplemented (9, 9))⟩ :=
  ⟨by decide, dispatch_unknown_method exEnv exSt (9, 9) [] none (by decide)⟩

/-- C5: with auto-decode enabled and a content body declaring an encoding,
a transcoding failure is swallowed: the content keeps its original body and
`dispatch_method` proceeds through the remaining steps exactly as it would
with the untouched content. -/
theorem dispatch_autodecode_failure_swallowed (ext : Externals)
    (st : ChannelState) (sig : Sig) (payload : Bytes) (c : Content)
    (enc : String)
    (h1 : st.auto_decode = true)
    (h2 : c.content_encoding = some enc)
    (h3 : ext.decodeBody c.body enc = none) :
    autoDecodeContent ext st.auto_decode (some c) = some c ∧
    dispatch_method ext st sig payload (some c) =
      dispatch_after_decode ext st sig payload (some c) := by
  have hA : autoDecodeContent ext st.auto_decode (some c) = some c := by
    simp [autoDecodeContent, h1, h2, h3]
  exact ⟨hA, by unfold dispatch_method; rw [hA]⟩

/-- Witness for C5 at a concrete channel state. -/
theorem dispatch_autodecode_failure_swallowed_witness :
    (({ exSt with auto_decode := true } : ChannelState).auto_decode = true ∧
     (Content.mk [1] (some "utf-8")).content_encoding = some "utf-8" ∧
     exEnv.decodeBody [1] "utf-8" = none) ∧
    (autoDecodeContent exEnv
       ({ exSt with auto_decode := true } : ChannelState).auto_decode
       (some (Content.mk [1] (some "utf-8"))) = some (Content.mk [1] (some "utf-8")) ∧
     dispatch_method exEnv { exSt with auto_decode := true } exSig []
       (some (Content.mk [1] (some "utf-8"))) =
     dispatch_after_decode exEnv { exSt with auto_decode := true } exSig []
       (some (Content.mk [1] (some "utf-8")))) :=
  ⟨⟨by decide, by decide, by decide⟩,
   dispatch_autodecode_failure_swallowed exEnv { exSt with auto_decode := true }
     exSig [] (Content.mk [1] (some "utf-8")) "utf-8" (by decide) (by decide)
     (by decide)⟩

/-- C6: a dispatch for a signature that is in the schema table but has
neither a listener nor a pending one-shot handle returns normally, invokes
nobody, and leaves the channel state unchanged (in particular the result does
not depend on the argument decoder, which is never consulted). -/
theorem dispatch_no_recipients (ext : Externals) (st : ChannelState)
    (sig : Sig) (payload : Bytes) (content : Option Content) (mt : MethodT)
    (h1 : ext.methods sig = some mt)
    (h2 : alookup st.callbacks sig = none)
    (h3 : alookup st.pending sig = none) :
    dispatch_method ext st sig payload content = ⟨st, [], none⟩ := by
  unfold dispatch_method dispatch_after_decode
  simp [h1, h2, h3]

/-- Witness for C6 at a concrete channel state. -/
theorem dispatch_no_recipients_witness :
    (exEnv.methods exSig = some exMt ∧
     alookup ({ exSt with callbacks := [] } : ChannelState).callbacks exSig = none ∧
     alookup ({ exSt with callbacks := [] } : ChannelState).pending exSig = none) ∧
    dispatch_method exEnv { exSt with callbacks := [] } exSig [] none =
      ⟨{ exSt with callbacks := [] }, [], none⟩ :=
  ⟨⟨by decide, by decide, by decide⟩,
   dispatch_no_recipients exEnv { exSt with callbacks := [] } exSig [] none exMt
     (by decide) (by decide) (by decide)⟩

/-- C7: when at least one recipient exists and decoding the argument payload
fails, the decode error propagates out of `dispatch_method`. -/
theorem dispatch_decode_error_propagates (ext : Externals) (st : ChannelState)
    (sig : Sig) (payload : Bytes) (content : Option Content) (mt : MethodT)
    (h1 : ext.methods sig = some mt)
    (h2 : decodeArgs ext mt payload
            (autoDecodeContent ext st.auto_decode content) = .error ())
    (h3 : alookup st.callbacks sig ≠ none ∨ alookup st.pending sig ≠ none) :
    (dispatch_method ext st sig payload content).err = some .decodeError := by
  unfold dispatch_method dispatch_after_decode dispatchDeliver
  rcases hc : alookup st.callbacks sig with _ | cb <;>
    rcases hp : alookup st.pending sig with _ | pid
  · rcases h3 with h | h <;> exact absurd (by assumption) h
  all_goals simp [h1, h2, hc, hp]

/-- Witness for C7 at a concrete channel state. -/
theorem dispatch_decode_error_propagates_witness :
    (exEnvBad.methods exSig = some exMt ∧
     decodeArgs exEnvBad exMt [] (autoDecodeContent exEnvBad exSt.auto_decode none)
       = .error () ∧
     alookup exSt.callbacks exSig ≠ none) ∧
    (dispatch_method exEnvBad exSt exSig [] none).err = some .decodeError :=
  ⟨⟨by decide, by rfl, by decide⟩,
   dispatch_decode_error_propagates exEnvBad exSt exSig [] none exMt (by decide)
     (by rfl) (Or.inl (by decide))⟩

/-- C10: when both a persistent listener and a one-shot handle are registered
for the dispatched signature, they are invoked in a fixed order: the
persistent listener first, then the one-shot handle. -/
theorem dispatch_listener_before_one_shot (ext : Externals) (st : ChannelState)
    (sig : Sig) (payload : Bytes) (content : Option Content) (mt : MethodT)
    (cb pid : Nat) (args : List Arg)
    (h1 : ext.methods sig = some mt)
    (h2 : alookup st.callbacks sig = some cb)
    (h3 : alookup st.pending sig = some pid)
    (h4 : decodeArgs ext mt payload
            (autoDecodeContent ext st.auto_decode content) = .ok args) :
    (dispatch_method ext st sig payload content).trace =
      [Ev.callListener cb args, Ev.resolvePromise pid args] := by
  rw [dispatch_merge_eq ext st sig payload content mt cb pid args h1 h2 h3 h4]

/-- Witness for C10 at a concrete channel state. -/
theorem dispatch_listener_before_one_shot_witness :
    (exEnv.methods exSig = some exMt ∧
     alookup ({ exSt with pending := [(exSig, 6)] } : ChannelState).callbacks
       exSig = some 3 ∧
     alookup ({ exSt with pending := [(exSig, 6)] } : ChannelState).pending
       exSig = some 6) ∧
    (dispatch_method exEnv { exSt with pending := [(exSig, 6)] } exSig [] none).trace =
      [Ev.callListener 3 [Arg.int 42], Ev.resolvePromise 6 [Arg.int 42]] :=
  ⟨⟨by decide, by decide, by decide⟩,
   dispatch_listener_before_one_shot exEnv { exSt with pending := [(exSig, 6)] }
     exSig [] none exMt 3 6 [Arg.int 42] (by decide) (by decide) (by decide)
     (by rfl)⟩

/-! ### Registry save/restore lemmas for `wait` -/

/-- With pairwise-distinct signatures, the saved handles collected by the
registration loop are exactly the pre-call registry entries. -/
theorem registerAll_prevs (ms : List Sig) (pending : List (Sig × Nat))
    (pid : Nat) (h : ms.Nodup) :
    (registerAll pending ms pid).1 = ms.map (alookup pending) := by
  induction ms generalizing pending with
  | nil => rfl
  | cons m rest ih =>
    have hm : m ∉ rest := (List.nodup_cons.mp h).1
    have hrest : rest.Nodup := (List.nodup_cons.mp h).2
    simp only [registerAll, List.map_cons]
    rw [ih _ hrest]
    refine congrArg _ (List.map_congr_left ?_)
    intro a ha
    exact alookup_aset_ne pending m a pid (fun e => hm (e ▸ ha))

/-- The restore loop leaves signatures outside the wait's list untouched. -/
theorem restoreAll_not_mem (ms : List Sig) (prevs : List (Option Nat))
    (pending : List (Sig × Nat)) (m : Sig) (h : m ∉ ms) :
    alookup (restoreAll pending ms prevs) m = alookup pending m := by
  induction ms generalizing pending prevs with
  | nil => cases prevs <;> rfl
  | cons m0 mrest ih =>
    cases prevs with
    | nil => rfl
    | cons prev prest =>
      have hne : m ≠ m0 := fun e => h (e ▸ List.mem_cons_self m0 mrest)
      have hnm : m ∉ mrest := fun hm => h (List.mem_cons_of_mem m0 hm)
      cases prev with
      | none =>
        rw [restoreAll, ih prest _ hnm, alookup_aerase_ne _ _ _ hne]
      | some q =>
        rw [restoreAll, ih prest _ hnm, alookup_aset_ne _ _ _ _ hne]

/-- With pairwise-distinct signatures, the restore loop writes each saved
handle back: afterwards every listed signature maps to exactly its saved
previous value (the handle, or absence). -/
theorem restoreAll_zip (ms : List Sig) (prevs : List (Option Nat))
    (pending : List (Sig × Nat)) (m : Sig) (prev : Option Nat)
    (hnd : ms.Nodup) (hmem : (m, prev) ∈ ms.zip prevs) :
    alookup (restoreAll pending ms prevs) m = prev := by
  induction ms generalizing pending prevs with
  | nil => simp [List.zip] at hmem
  | cons m0 mrest ih =>
    cases prevs with
    | nil => simp [List.zip] at hmem
    | cons p0 prest =>
      rcases List.mem_cons.mp hmem with heq | htail
      · have hm1 : m = m0 := congrArg Prod.fst heq
        have hp1 : prev = p0 := congrArg Prod.snd heq
        subst hm1; subst hp1
        have hm : m ∉ mrest := (List.nodup_cons.mp hnd).1
        cases prev with
        | none =>
          rw [restoreAll, restoreAll_not_mem _ _ _ _ hm, alookup_aerase_self]
        | some q =>
          rw [restoreAll, restoreAll_not_mem _ _ _ _ hm, alookup_aset_self]
      · have hrest : mrest.Nodup := (List.nodup_cons.mp hnd).2
        cases p0 with
        | none => rw [restoreAll]; exact ih prest _ hrest htail
        | some q => rw [restoreAll]; exact ih prest _ hrest htail

/-- Membership in the zip of a list with its own map. -/
theorem zip_map_mem (ms : List Sig) (f : Sig → Option Nat) (m : Sig)
    (h : m ∈ ms) : (m, f m) ∈ ms.zip (ms.map f) := by
  induction ms with
  | nil => cases h
  | cons m0 rest ih =>
    rcases List.mem_cons.mp h with rfl | htail
    · exact List.mem_cons_self _ _
    · exact List.mem_cons_of_mem _ (ih htail)

/-- `wait`'s epilogue reports `stuck` exactly when the drain loop got stuck. -/
theorem waitFinish_out_stuck (method : List Sig) (prev_p : List (Option Nat))
    (p : Nat) (rt : Bool) (r : ChannelState × List Ev × LoopOut) :
    (waitFinish method prev_p p rt r).out = .stuck ↔ r.2.2 = .stuck := by
  rcases hr : r.2.2 <;> simp [waitFinish, hr]

/-- On every exiting path of the drain loop, `wait`'s epilogue runs the
`finally:` restore loop. -/
theorem waitFinish_pending (method : List Sig) (prev_p : List (Option Nat))
    (p : Nat) (rt : Bool) (r : ChannelState × List Ev × LoopOut)
    (h : r.2.2 ≠ .stuck) :
    (waitFinish method prev_p p rt r).st.pending =
      restoreAll r.1.pending method prev_p := by
  rcases hr : r.2.2 <;> simp [waitFinish, hr] at h ⊢

/-- Counterexample input for C1: a `wait` whose signature list repeats the
same signature.  The second registration saves the wait's own handle, so the
restore loop writes that handle back instead of removing the entry: the
registry does not return to its pre-call state even on a normal exit. -/
theorem wait_duplicate_sig_not_restored :
    (wait exEnv exSt [DrainEvent.frame exSig [] none] [exSig, exSig] none
        false).out ≠ WaitOutcome.stuck ∧
    alookup (wait exEnv exSt [DrainEvent.frame exSig [] none] [exSig, exSig]
        none false).st.pending exSig ≠ alookup exSt.pending exSig := by
  decide

/-- C1 (amended: the signatures of the list must be pairwise distinct): on
every exit path of `wait` — normal resolution, timeout, or an exception
raised while draining — every listed signature's pending-registry entry is
restored to its pre-call state: the previously saved handle if one existed,
otherwise the entry is absent. -/
theorem wait_restores_pending_registry (ext : Externals) (st : ChannelState)
    (events : List DrainEvent) (method : List Sig) (callback : Option Nat)
    (rt : Bool)
    (hnd : method.Nodup)
    (hns : (wait ext st events method callback rt).out ≠ .stuck) :
    ∀ m ∈ method,
      alookup (wait ext st events method callback rt).st.pending m =
        alookup st.pending m := by
  intro m hm
  unfold wait at hns ⊢
  simp only [ne_eq, waitFinish_out_stuck] at hns
  rw [waitFinish_pending _ _ _ _ _ hns,
      registerAll_prevs _ _ _ hnd]
  exact restoreAll_zip _ _ _ _ _ hnd (zip_map_mem method _ m hm)

/-- Witness for the amended C1: an outer handle (id 7) is registered for
`exSig`; an inner `wait` on `[exSig]` resolves normally and the outer handle
is back afterwards. -/
theorem wait_restores_pending_registry_witness :
    (([exSig] : List Sig).Nodup ∧
     (wait exEnv { exSt with pending := [(exSig, 7)] }
        [DrainEvent.frame exSig [] none] [exSig] none false).out ≠ .stuck) ∧
    alookup (wait exEnv { exSt with pending := [(exSig, 7)] }
        [DrainEvent.frame exSig [] none] [exSig] none false).st.pending exSig =
      alookup ({ exSt with pending := [(exSig, 7)] } : ChannelState).pending
        exSig :=
  ⟨⟨by decide, by decide⟩,
   wait_restores_pending_registry exEnv { exSt with pending := [(exSig, 7)] }
     [DrainEvent.frame exSig [] none] [exSig] none false (by decide) (by decide)
     exSig (by decide)⟩

/-! ### Closed-connection behaviour -/

/-- Reading the promise slot just allocated by `promiseAlloc`. -/
theorem promiseGet_alloc (ps : List PromiseState) :
    promiseGet (ps ++ [⟨false, none⟩]) ps.length = ⟨false, none⟩ := by
  unfold promiseGet
  rw [List.get?_concat_length]
  rfl

/-- On a channel whose promise is unready and whose connection reference is
absent, the drain loop raises immediately, regardless of the drain script. -/
theorem waitLoop_disconnected (ext : Externals) (pid : Nat)
    (st : ChannelState) (events : List DrainEvent)
    (h1 : (promiseGet st.promises pid).ready = false)
    (h2 : st.connected = false) :
    waitLoop ext pid st events = (st, [], .errored .attributeError) := by
  cases events with
  | nil => simp [waitLoop, h1, h2]
  | cons ev rest => cases ev <;> simp [waitLoop, h1, h2]

/-- Counterexample input for C2: on a channel whose connection reference is
absent, `wait` does fail immediately, but by raising an attribute-access
error on the absent connection (`self.connection.drain_events` with
`self.connection` being `None`), not the connection-closed condition. -/
theorem wait_closed_connection_attribute_error :
    (wait exEnv { exSt with connected := false } [] [exSig] none false).out =
      .error .attributeError ∧
    (wait exEnv { exSt with connected := false } [] [exSig] none false).out ≠
      .error .recoverableConnectionError := by
  decide

/-- C2 (amended): after the connection reference becomes absent,
`send_method` fails immediately with the connection-closed condition and
performs no transport write; `wait` (called without a pre-resolved callback
promise) also fails immediately, before draining any event, but with an
attribute error on the absent connection rather than the connection-closed
condition. -/
theorem closed_connection_guard (ext : Externals) (writer : WriteOutcome)
    (st : ChannelState) (events : List DrainEvent) (sig : Sig)
    (fmt : Option String) (args : List Arg) (content : Option Content)
    (wait_for : List Sig) (scb : Option Nat) (rt : Bool) (method : List Sig)
    (h : st.connected = false) :
    (send_method ext writer st events sig fmt args content wait_for scb rt).out
        = .error .recoverableConnectionError ∧
    (send_method ext writer st events sig fmt args content wait_for scb rt).trace
        = [] ∧
    (wait ext st events method none rt).out = .error .attributeError ∧
    (wait ext st events method none rt).trace = [] := by
  have hloop : waitLoop ext (waitPromise st none).1
      { st with promises := (waitPromise st none).2,
                pending := (registerAll st.pending method (waitPromise st none).1).2 }
      events =
      ({ st with promises := (waitPromise st none).2,
                 pending := (registerAll st.pending method (waitPromise st none).1).2 },
       [], .errored .attributeError) := by
    apply waitLoop_disconnected
    · simp [waitPromise, promiseAlloc, promiseGet_alloc]
    · simp [h]
  refine ⟨?_, ?_, ?_, ?_⟩
  · simp [send_method, h]
  · simp [send_method, h]
  · unfold wait; rw [hloop]; simp [waitFinish]
  · unfold wait; rw [hloop]; simp [waitFinish]

/-- Witness for the amended C2 at a concrete closed channel. -/
theorem closed_connection_guard_witness :
    (({ exSt with connected := false } : ChannelState).connected = false) ∧
    ((send_method exEnv .ok { exSt with connected := false } [] exSig none []
        none [] none false).out = .error .recoverableConnectionError ∧
     (send_method exEnv .ok { exSt with connected := false } [] exSig none []
        none [] none false).trace = [] ∧
     (wait exEnv { exSt with connected := false } [] [exSig] none false).out =
        .error .attributeError ∧
     (wait exEnv { exSt with connected := false } [] [exSig] none false).trace
        = []) :=
  ⟨by decide,
   closed_connection_guard exEnv .ok { exSt with connected := false } [] exSig
     none [] none [] none false [exSig] (by decide)⟩

/-! ### The listener registry is never mutated by wait/send_method -/

/-- The drain loop never touches the listener registry. -/
theorem waitLoop_callbacks (ext : Externals) (pid : Nat)
    (events : List DrainEvent) :
    ∀ st : ChannelState, (waitLoop ext pid st events).1.callbacks = st.callbacks := by
  induction events with
  | nil =>
    intro st
    unfold waitLoop
    by_cases h1 : (promiseGet st.promises pid).ready = true <;> simp [h1]
    by_cases h2 : st.connected = false <;> simp [h2]
  | cons ev rest ih =>
    intro st
    unfold waitLoop
    by_cases h1 : (promiseGet st.promises pid).ready = true <;> simp [h1]
    by_cases h2 : st.connected = false <;> simp [h2]
    cases ev with
    | timeout => rfl
    | fail => rfl
    | frame sig payload content =>
      cases herr : (dispatch_method ext st sig payload content).err with
      | some e => simp [herr, dispatch_method_callbacks]
      | none => simp [herr, ih, dispatch_method_callbacks]

/-- `wait`'s epilogue never touches the listener registry. -/
theorem waitFinish_callbacks (method : List Sig) (prev_p : List (Option Nat))
    (p : Nat) (rt : Bool) (r : ChannelState × List Ev × LoopOut) :
    (waitFinish method prev_p p rt r).st.callbacks = r.1.callbacks := by
  rcases hr : r.2.2 <;> simp [waitFinish, hr]

/-- `wait` leaves the listener registry unchanged. -/
theorem wait_preserves_callbacks (ext : Externals) (st : ChannelState)
    (events : List DrainEvent) (method : List Sig) (callback : Option Nat)
    (rt : Bool) :
    (wait ext st events method callback rt).st.callbacks = st.callbacks := by
  unfold wait
  rw [waitFinish_callbacks, waitLoop_callbacks]

/-- `send_method` leaves the listener registry unchanged. -/
theorem send_method_preserves_callbacks (ext : Externals)
    (writer : WriteOutcome) (st : ChannelState) (events : List DrainEvent)
    (sig : Sig) (fmt : Option String) (args : List Arg)
    (content : Option Content) (wait_for : List Sig) (scb : Option Nat)
    (rt : Bool) :
    (send_method ext writer st events sig fmt args content wait_for scb rt).st.callbacks
      = st.callbacks := by
  unfold send_method
  by_cases h : st.connected = false <;> simp [h]
  cases writer with
  | stopIteration => simp
  | raiseOther => simp
  | ok =>
    by_cases hw : wait_for = []
    · simp [hw]
    · simp [List.isEmpty_iff, hw]
      split <;> simp [wait_preserves_callbacks]

/-- C9: neither `wait` nor `send_method` adds, removes, or replaces any
entry of the listener registry (`_callbacks`). -/
theorem wait_send_leave_listener_registry_unchanged (ext : Externals)
    (writer : WriteOutcome) (st : ChannelState) (events : List DrainEvent)
    (method : List Sig) (callback : Option Nat) (rt : Bool) (sig : Sig)
    (fmt : Option String) (args : List Arg) (content : Option Content)
    (wait_for : List Sig) (scb : Option Nat) :
    (wait ext st events method callback rt).st.callbacks = st.callbacks ∧
    (send_method ext writer st events sig fmt args content wait_for scb rt).st.callbacks
      = st.callbacks :=
  ⟨wait_preserves_callbacks ext st events method callback rt,
   send_method_preserves_callbacks ext writer st events sig fmt args content
     wait_for scb rt⟩

/-! ### Send-completion marker: resolved only after a successful write -/

/-- A ready promise slot is within the heap. -/
theorem promiseGet_ready_lt (ps : List PromiseState) (q : Nat)
    (h : (promiseGet ps q).ready = true) : q < ps.length := by
  unfold promiseGet at h
  cases hg : ps.get? q with
  | none => rw [hg] at h; simp at h
  | some p => exact (List.get?_eq_some.mp hg).1

/-- Resolving any promise never un-resolves another. -/
theorem promiseResolve_ready_mono (ps : List PromiseState) (pid : Nat)
    (args : List Arg) (q : Nat) (h : (promiseGet ps q).ready = true) :
    (promiseGet (promiseResolve ps pid args) q).ready = true := by
  unfold promiseResolve
  cases hg : ps.get? pid with
  | none => exact h
  | some p =>
    by_cases hr : p.ready = true
    · simp [hr]; exact h
    · simp [hr]
      by_cases hq : pid = q
      · subst hq
        exfalso
        unfold promiseGet at h
        rw [hg] at h
        simp at h
        exact hr h
      · unfold promiseGet
        rw [List.get?_set_ne _ _ hq]
        exact h

/-- Appending a fresh promise preserves existing slots. -/
theorem promiseGet_append_lt (ps : List PromiseState) (x : PromiseState)
    (q : Nat) (h : q < ps.length) : promiseGet (ps ++ [x]) q = promiseGet ps q := by
  unfold promiseGet
  rw [List.get?_append h]

theorem invokeRecipient_ready_mono (st : ChannelState) (r : Recipient)
    (args : List Arg) (q : Nat) (h : (promiseGet st.promises q).ready = true) :
    (promiseGet (invokeRecipient st r args).1.promises q).ready = true := by
  cases r with
  | cb c => exact h
  | promise pid => exact promiseResolve_ready_mono st.promises pid args q h

theorem invokeAll_ready_mono (rs : List Recipient) (st : ChannelState)
    (args : List Arg) (q : Nat) (h : (promiseGet st.promises q).ready = true) :
    (promiseGet (invokeAll st rs args).1.promises q).ready = true := by
  induction rs generalizing st with
  | nil => exact h
  | cons r rest ih =>
    simp only [invokeAll]
    exact ih _ (invokeRecipient_ready_mono st r args q h)

theorem dispatchDeliver_ready_mono (ext : Externals) (st : ChannelState)
    (mt : MethodT) (payload : Bytes) (content : Option Content)
    (ls : List Recipient) (q : Nat)
    (h : (promiseGet st.promises q).ready = true) :
    (promiseGet (dispatchDeliver ext st mt payload content ls).st.promises q).ready
      = true := by
  unfold dispatchDeliver
  cases decodeArgs ext mt payload content with
  | error e => exact h
  | ok args => exact invokeAll_ready_mono ls st args q h

theorem dispatch_method_ready_mono (ext : Externals) (st : ChannelState)
    (sig : Sig) (payload : Bytes) (content : Option Content) (q : Nat)
    (h : (promiseGet st.promises q).ready = true) :
    (promiseGet (dispatch_method ext st sig payload content).st.promises q).ready
      = true := by
  unfold dispatch_method dispatch_after_decode
  cases ext.methods sig with
  | none => exact h
  | some mt =>
    cases hp : alookup st.pending sig with
    | none =>
      cases hc : alookup st.callbacks sig with
      | none => simp [hp, hc]; exact h
      | some cb =>
        simp [hp, hc]
        exact dispatchDeliver_ready_mono ext _ mt payload _ _ q h
    | some pid =>
      simp [hp]
      exact dispatchDeliver_ready_mono ext _ mt payload _ _ q h

theorem waitLoop_ready_mono (ext : Externals) (pid : Nat)
    (events : List DrainEvent) (q : Nat) :
    ∀ st : ChannelState, (promiseGet st.promises q).ready = true →
      (promiseGet (waitLoop ext pid st events).1.promises q).ready = true := by
  induction events with
  | nil =>
    intro st h
    unfold waitLoop
    by_cases h1 : (promiseGet st.promises pid).ready = true <;> simp [h1]
    · exact h
    · by_cases h2 : st.connected = false <;> simp [h2] <;> exact h
  | cons ev rest ih =>
    intro st h
    unfold waitLoop
    by_cases h1 : (promiseGet st.promises pid).ready = true <;> simp [h1]
    · exact h
    · by_cases h2 : st.connected = false <;> simp [h2]
      · exact h
      · cases ev with
        | timeout => exact h
        | fail => exact h
        | frame sig payload content =>
          cases herr : (dispatch_method ext st sig payload content).err with
          | some e =>
            simp [herr]
            exact dispatch_method_ready_mono ext st sig payload content q h
          | none =>
            simp [herr]
            exact ih _ (dispatch_method_ready_mono ext st sig payload content q h)

/-- `wait`'s epilogue never touches the promise heap. -/
theorem waitFinish_promises (method : List Sig) (prev_p : List (Option Nat))
    (p : Nat) (rt : Bool) (r : ChannelState × List Ev × LoopOut) :
    (waitFinish method prev_p p rt r).st.promises = r.1.promises := by
  rcases hr : r.2.2 <;> simp [waitFinish, hr]

/-- A promise resolved before a `wait` is still resolved afterwards. -/
theorem wait_ready_mono (ext : Externals) (st : ChannelState)
    (events : List DrainEvent) (method : List Sig) (callback : Option Nat)
    (rt : Bool) (q : Nat) (h : (promiseGet st.promises q).ready = true) :
    (promiseGet (wait ext st events method callback rt).st.promises q).ready
      = true := by
  unfold wait
  rw [waitFinish_promises]
  apply waitLoop_ready_mono
  cases callback with
  | some pid => exact h
  | none =>
    show (promiseGet (st.promises ++ [⟨false, none⟩]) q).ready = true
    rw [promiseGet_append_lt _ _ _ (promiseGet_ready_lt st.promises q h)]
    exact h

/-- Resolving the slot just allocated by `promiseAlloc` marks it ready. -/
theorem promiseResolve_alloc_ready (ps : List PromiseState) (args : List Arg) :
    (promiseGet (promiseResolve (ps ++ [⟨false, none⟩]) ps.length args)
        ps.length).ready = true := by
  unfold promiseResolve
  rw [List.get?_concat_length]
  simp only [Bool.false_eq_true, if_false]
  unfold promiseGet
  rw [List.get?_set_eq_of_lt]
  · rfl
  · simp

/-- C8: with the connection present, a frame-writer failure caused by the
writer coroutine stopping (`StopIteration`) is reported as the distinct
connection-closed condition, and the internal send-completion marker is then
left unresolved; when the write succeeds the marker is resolved. -/
theorem send_method_marker_after_write (ext : Externals) (st : ChannelState)
    (events : List DrainEvent) (sig : Sig) (fmt : Option String)
    (args : List Arg) (content : Option Content) (wait_for : List Sig)
    (scb : Option Nat) (rt : Bool) (h : st.connected = true) :
    (send_method ext .stopIteration st events sig fmt args content wait_for scb rt).out
        = .error .recoverableConnectionError ∧
    (promiseGet
        (send_method ext .stopIteration st events sig fmt args content wait_for scb rt).st.promises
        st.promises.length).ready = false ∧
    (promiseGet
        (send_method ext .ok st events sig fmt args content wait_for scb rt).st.promises
        st.promises.length).ready = true := by
  have hnc : ¬ st.connected = false := by simp [h]
  refine ⟨?_, ?_, ?_⟩
  · simp [send_method, hnc]
  · simp [send_method, hnc, promiseAlloc, promiseGet_alloc]
  · have hbase := promiseResolve_alloc_ready st.promises ([] : List Arg)
    by_cases hw : wait_for = []
    · simp [send_method, hnc, hw, promiseAlloc]
      exact hbase
    · simp [send_method, hnc, List.isEmpty_iff, hw, promiseAlloc]
      split <;> exact wait_ready_mono ext _ events wait_for none rt _ hbase

/-- Witness for C8 at a concrete open channel. -/
theorem send_method_marker_after_write_witness :
    exSt.connected = true ∧
    ((send_method exEnv .stopIteration exSt [] exSig none [] none [] none false).out
        = .error .recoverableConnectionError ∧
     (promiseGet
        (send_method exEnv .stopIteration exSt [] exSig none [] none [] none false).st.promises
        exSt.promises.length).ready = false ∧
     (promiseGet
        (send_method exEnv .ok exSt [] exSig none [] none [] none false).st.promises
        exSt.promises.length).ready = true) :=
  ⟨by decide,
   send_method_marker_after_write exEnv exSt [] exSig none [] none [] none false
     (by decide)⟩

end Amqp
